import Mathlib

/-!
Verification of the IRT temperature dashboard (`graphing_code_dash_v3.py`).

The program loads a spreadsheet of sensor readings, parses the `TIMESTAMP`
column (minute resolution), sets it as the index, replaces the sentinel
value `-9999` by a missing marker, resamples each channel to 5-minute
buckets by the mean of the non-missing readings, and serves two callbacks:
`update_temp_plot` (a line+marker chart per selected channel) and
`update_errorbars_plot` (the same chart with a rolling standard deviation
as error bars, plus a statistical summary: a paired t-test for exactly two
selected channels, a repeated-measures ANOVA for three or more).

Timestamps are embedded as integers counting minutes (the parse format
`%m/%d/%Y %H:%M` has minute resolution), temperatures as rationals, and
missing values as `Option`.  `scipy.stats.ttest_rel` is embedded with its
default `nan_policy` (a NaN anywhere in the differences makes both outputs
NaN); NaN results are a distinguished constructor rather than a number.
-/

namespace IRT

/-- The three fixed channels of the dashboard. -/
inductive Channel : Type
  | c1331
  | c1370
  | c1376
deriving DecidableEq

/-- Column name of a channel, as the dropdown values list them. -/
def channelName : Channel → String
  | .c1331 => "TempC_target_1331"
  | .c1370 => "TempC_target_1370"
  | .c1376 => "TempC_target_1376"

/-- One row of the source spreadsheet after `pd.to_datetime`: a parsed
timestamp (minutes) and one raw reading per channel (possibly the
sentinel `-9999`). -/
structure SourceRow : Type where
  ts : ℤ
  val : Channel → ℚ

/-- One row of the table once `TIMESTAMP` has been made the index
(`df.set_index`): the timestamp is now the index, the channel readings
are the remaining columns. -/
structure IndexedRow : Type where
  ts : ℤ
  val : Channel → ℚ

/-- One row of a table whose cells may be missing (`pd.NA` / `NaN`). -/
@[ext]
structure Row : Type where
  ts : ℤ
  val : Channel → Option ℚ

/-- The sentinel value meaning "no valid reading". -/
def sentinel : ℚ := -9999

/-- `df.set_index('TIMESTAMP', inplace=True)`: move the timestamp column
into the index. -/
def set_index (rows : List SourceRow) : List IndexedRow :=
  rows.map fun r => { ts := r.ts, val := r.val }

/-- `df.replace(-9999, pd.NA, inplace=True)`: the whole-table replacement
of the sentinel.  It runs after `set_index`, so it scans every remaining
column — the three channel columns — and never the index. -/
def replaceSentinel (t : List IndexedRow) : List Row :=
  t.map fun r =>
    { ts := r.ts, val := fun c => if r.val c = sentinel then none else some (r.val c) }

/-- The loaded Time-Indexed Table `df`: timestamps parsed and indexed,
sentinel values masked. -/
def df (rows : List SourceRow) : List Row :=
  replaceSentinel (set_index rows)

/-- The 5-minute bucket containing minute `t`: `resample('5T')` floors the
timestamp to a multiple of 5 minutes. -/
def bucketOf (t : ℤ) : ℤ := 5 * Int.fdiv t 5

/-- The non-missing readings of channel `c` falling into bucket `b`. -/
def bucketVals (rows : List Row) (b : ℤ) (c : Channel) : List ℚ :=
  (rows.filter fun r => bucketOf r.ts = b).filterMap fun r => r.val c

/-- The mean `pandas` takes inside one bucket: the arithmetic mean of the
non-missing values, or missing when there is none. -/
def meanOpt (xs : List ℚ) : Option ℚ :=
  if xs.isEmpty then none else some (xs.sum / (xs.length : ℚ))

/-- `df[...].resample('5T').mean()`: a row for every 5-minute bucket from
the smallest to the largest bucket of the index, holding per channel the
mean of the non-missing readings in that bucket (missing when a bucket
has none, including the grid buckets no reading falls into). -/
def resample (rows : List Row) : List Row :=
  match rows with
  | [] => []
  | r0 :: rest =>
      let lo := (rest.map fun r => bucketOf r.ts).foldl min (bucketOf r0.ts)
      let hi := (rest.map fun r => bucketOf r.ts).foldl max (bucketOf r0.ts)
      (List.range ((hi - lo).toNat / 5 + 1)).map fun (i : ℕ) =>
        { ts := lo + 5 * (i : ℤ),
          val := fun c => meanOpt (bucketVals rows (lo + 5 * (i : ℤ)) c) }

/-- The cached Resampled Series `df_resampled`, computed once at startup. -/
def df_resampled (rows : List SourceRow) : List Row :=
  resample (df rows)

/-- One channel's resampled column, in index order. -/
def colSeries (tbl : List Row) (c : Channel) : List (Option ℚ) :=
  tbl.map fun r => r.val c

/-- The `error_y` dictionary of a trace: per-point error values (missing
where the rolling window is not full), drawn as configured. -/
structure ErrorY : Type where
  kind : String
  array : List (Option ℝ)
  visible : Bool
  color : String
  thickness : ℚ
  width : ℚ

/-- One `go.Scatter` trace: x-values, y-values, mode, legend name and the
optional error bars. -/
structure Trace : Type where
  x : List ℤ
  y : List (Option ℚ)
  mode : String
  name : String
  error_y : Option ErrorY := none

/-- A `go.Figure`: the traces added so far and the layout fields the two
callbacks set. -/
structure Figure : Type where
  traces : List Trace := []
  title : String := ""
  xaxis_title : String := ""
  yaxis_title : String := ""
  template : String := ""
  hovermode : String := ""
  font_family : String := ""
  font_size : ℕ := 0

/-- `fig.add_trace(t)`: append one trace. -/
def addTrace (fig : Figure) (t : Trace) : Figure :=
  { fig with traces := fig.traces ++ [t] }

/-- The trace `update_temp_plot` adds for one selected channel: x = the
resampled bucket timestamps, y = the channel's resampled temperatures. -/
def tempTrace (tbl : List Row) (c : Channel) : Trace :=
  { x := tbl.map fun r => r.ts
    y := colSeries tbl c
    mode := "lines+markers"
    name := channelName c }

/-- The layout `update_temp_plot` sets after its loop. -/
def tempLayout (fig : Figure) : Figure :=
  { fig with
    title := "IRT Temperatures (Every 5 Minutes)"
    xaxis_title := "Timestamp"
    yaxis_title := "Temperature (°C)"
    template := "plotly_dark"
    hovermode := "x"
    font_family := "Open Sans"
    font_size := 14 }

/-- The first tab's callback `update_temp_plot`: start from an empty
figure, add one line+marker trace per selected channel, set the layout. -/
def update_temp_plot (sel : List Channel) (tbl : List Row) : Figure :=
  tempLayout (sel.foldl (fun fig c => addTrace fig (tempTrace tbl c)) {})

/-- Sample variance with one delta degree of freedom (`ddof=1`), as both
`Series.rolling(...).std()` and `ttest_rel` use it (under a square root
for the former). -/
def sampleVar (xs : List ℚ) : ℚ :=
  ((xs.map fun x => (x - xs.sum / (xs.length : ℚ)) ^ 2).sum) / ((xs.length : ℚ) - 1)

/-- The trailing window of size 5 ending at 0-based position `i`:
positions `max 0 (i-4) .. i`. -/
def windowAt (s : List (Option ℚ)) (i : ℕ) : List (Option ℚ) :=
  (s.take (i + 1)).drop (i + 1 - 5)

/-- One entry of `Series.rolling(window=5).std()`: with the default
`min_periods = 5`, the value at position `i` is present exactly when the
trailing window holds 5 non-missing values, and is then their sample
standard deviation. -/
noncomputable def rollingStdAt (s : List (Option ℚ)) (i : ℕ) : Option ℝ :=
  let xs := (windowAt s i).filterMap id
  if 5 ≤ xs.length then some (Real.sqrt ((sampleVar xs : ℚ) : ℝ)) else none

/-- `df_resampled[sensor].rolling(window=5).std()`: the error-bar series
of one channel. -/
noncomputable def rollingStd (s : List (Option ℚ)) : List (Option ℝ) :=
  (List.range s.length).map fun i => rollingStdAt s i

/-- The trace `update_errorbars_plot` adds for one selected channel: the
same line+marker series with the rolling standard deviation attached as
`error_y`. -/
noncomputable def errTrace (tbl : List Row) (c : Channel) : Trace :=
  { x := tbl.map fun r => r.ts
    y := colSeries tbl c
    mode := "lines+markers"
    name := channelName c
    error_y := some
      { kind := "data"
        array := rollingStd (colSeries tbl c)
        visible := true
        color := "gray"
        thickness := 3 / 2
        width := 3 } }

/-- The layout `update_errorbars_plot` sets after its loop. -/
def errorbarsLayout (fig : Figure) : Figure :=
  { fig with
    title := "IRT Temperatures with Error Bars (Every 5 Minutes)"
    xaxis_title := "Timestamp"
    yaxis_title := "Temperature (°C)"
    template := "plotly_dark"
    hovermode := "x"
    font_family := "Open Sans"
    font_size := 14 }

/-- The figure of the second tab's callback: one error-bar trace per
selected channel. -/
noncomputable def errorbarsFigure (sel : List Channel) (tbl : List Row) : Figure :=
  errorbarsLayout (sel.foldl (fun fig c => addTrace fig (errTrace tbl c)) {})

/-- Elementwise difference of two aligned series, as the subtraction of
two float arrays computes it: NaN (missing) on either side gives NaN. -/
def pairDiff : Option ℚ → Option ℚ → Option ℚ
  | some u, some v => some (u - v)
  | _, _ => none

/-- Outcome of `scipy.stats.ttest_rel`: a NaN pair (both statistic and
p-value are NaN), an infinite statistic with p-value 0 (zero variance of
the differences but a nonzero mean difference), or a finite statistic
with its two-sided p-value. -/
inductive TTestOutcome : Type
  | nan : TTestOutcome
  | inf : Bool → TTestOutcome
  | ok : ℝ → ℝ → TTestOutcome

/-- The integrand of the Beta integral, `u ^ (a-1) * (1-u) ^ (b-1)`. -/
noncomputable def betaKernel (a b u : ℝ) : ℝ :=
  u ^ (a - 1) * (1 - u) ^ (b - 1)

/-- The lower incomplete Beta integral `∫ u in 0..x, u^(a-1) (1-u)^(b-1)`. -/
noncomputable def incBeta (a b x : ℝ) : ℝ :=
  ∫ u in (0 : ℝ)..x, betaKernel a b u

/-- The regularized incomplete Beta function `I_x(a, b)`, the ratio of the
incomplete Beta integral to the complete one. -/
noncomputable def regIncBeta (a b x : ℝ) : ℝ :=
  incBeta a b x / incBeta a b 1

/-- The two-sided p-value of a Student t statistic `t` with `ν` degrees of
freedom, as `scipy.special.stdtr` evaluates it:
`2 * sf(|t|) = I_{ν/(ν+t²)}(ν/2, 1/2)`. -/
noncomputable def tPvalue (ν : ℕ) (t : ℝ) : ℝ :=
  regIncBeta ((ν : ℝ) / 2) (1 / 2) ((ν : ℝ) / ((ν : ℝ) + t ^ 2))

/-- The paired t statistic `mean(d) / sqrt(var(d)/n)` over the present
paired differences of two series. -/
noncomputable def tStatOf (a b : List (Option ℚ)) : ℝ :=
  let ds := (List.zipWith pairDiff a b).filterMap id
  ((ds.sum / (ds.length : ℚ) : ℚ) : ℝ) / Real.sqrt (((sampleVar ds : ℚ) : ℝ) / (ds.length : ℝ))

/-- `scipy.stats.ttest_rel(a, b)` with its default `nan_policy`
(`'propagate'`): the paired differences are taken index by index; a
missing value on either side, or fewer than two pairs, makes both outputs
NaN; zero variance of the differences makes the statistic `0/0` (NaN) or
`±inf`; otherwise the statistic is `mean(d) / sqrt(var(d)/n)` and the
p-value is two-sided with `n - 1` degrees of freedom. -/
noncomputable def ttest_rel (a b : List (Option ℚ)) : TTestOutcome :=
  let d := List.zipWith pairDiff a b
  if (∀ o ∈ d, o.isSome) ∧ 2 ≤ d.length then
    let ds := d.filterMap id
    let m := ds.sum / (ds.length : ℚ)
    if sampleVar ds = 0 then
      if m = 0 then .nan else .inf (0 < m)
    else
      .ok (tStatOf a b) (tPvalue (ds.length - 1) (tStatOf a b))
  else .nan

/-- Rounding to the nearest integer with ties to even, as float formatting
rounds. -/
noncomputable def pyRound (x : ℝ) : ℤ :=
  if x - ⌊x⌋ < 1 / 2 then ⌊x⌋
  else if 1 / 2 < x - ⌊x⌋ then ⌊x⌋ + 1
  else if Even ⌊x⌋ then ⌊x⌋ else ⌊x⌋ + 1

/-- A natural number printed as decimal digits, zero-padded on the left to
4 places. -/
def zeroPad4 (m : ℕ) : String :=
  let s := toString m
  String.mk (List.replicate (4 - s.length) (Char.ofNat 48)) ++ s

/-- Python's fixed-point format `f"{x:.4f}"` of a finite value: sign,
integer digits, a decimal point, then exactly 4 fractional digits. -/
noncomputable def fmt4 (x : ℝ) : String :=
  let n := pyRound (|x| * 10000)
  (if x < 0 then "-" else "") ++ toString (n / 10000) ++ "." ++ zeroPad4 (n % 10000).toNat

/-- How an f-string renders the two outputs of `ttest_rel` with `:.4f`:
NaN prints `nan`, an infinite statistic prints `inf`/`-inf` with p-value
0, and finite values print with 4 decimal places. -/
noncomputable def tStatStr : TTestOutcome → String
  | .nan => "nan"
  | .inf b => if b then "inf" else "-inf"
  | .ok t _ => fmt4 t

/-- The p-value column of the summary line, rendered like `tStatStr`. -/
noncomputable def pValueStr : TTestOutcome → String
  | .nan => "nan"
  | .inf _ => fmt4 0
  | .ok _ p => fmt4 p

/-- The summary text of the two-channel branch, as the f-string
concatenates it. -/
noncomputable def pairedText (a b : Channel) (out : TTestOutcome) : String :=
  "Paired t-test between " ++ channelName a ++ " and " ++ channelName b ++ ":\n" ++
    "t-stat = " ++ tStatStr out ++ ", p-value = " ++ pValueStr out

/-- One row of the long-form frame `df_melted`: the `TIMESTAMP`, `Sensor`
and `Temperature` columns produced by `reset_index().melt(...)`. -/
structure MeltRow : Type where
  ts : ℤ
  sensor : String
  temp : Option ℚ

/-- `df_resampled[selected].reset_index().melt(id_vars=['TIMESTAMP'],
var_name='Sensor', value_name='Temperature')`: the value columns are
stacked one after the other in selection order, each carrying every
timestamp in index order. -/
def melt (sel : List Channel) (tbl : List Row) : List MeltRow :=
  sel.flatMap fun c => tbl.map fun r => { ts := r.ts, sensor := channelName c, temp := r.val c }

/-- Row count of each level of the within factor, one entry per distinct
`Sensor` value in order of first appearance. -/
def withinCounts (long : List MeltRow) : List ℕ :=
  ((long.map fun r => r.sensor).dedup).map fun v =>
    (long.filter fun r => r.sensor = v).length

/-- Modelled from the statsmodels `AnovaRM` interface: construction
rejects data with more than one observation per subject × within-factor
cell (no `aggregate_func` is passed) and data whose within-factor cells
have unequal row counts, raising `ValueError('Data is unbalanced.')`. -/
def anovaRMBalanced (long : List MeltRow) : Prop :=
  (long.map fun r => (r.ts, r.sensor)).Nodup ∧
    ∀ k ∈ withinCounts long, k = (withinCounts long).headD 0

instance (long : List MeltRow) : Decidable (anovaRMBalanced long) := by
  unfold anovaRMBalanced; infer_instance

/-- Mean of a list of rationals (0 for the empty list, which no caller
reaches). -/
def qMean (xs : List ℚ) : ℚ := xs.sum / (xs.length : ℚ)

/-- The present `Temperature` values of the long-form frame. -/
def longTemps (long : List MeltRow) : List ℚ := long.filterMap fun r => r.temp

/-- The distinct levels of the within factor, in order of appearance. -/
def levelsOf (long : List MeltRow) : List String := (long.map fun r => r.sensor).dedup

/-- The distinct subjects (timestamps), in order of appearance. -/
def subjectsOf (long : List MeltRow) : List ℤ := (long.map fun r => r.ts).dedup

/-- Modelled from the statsmodels `AnovaRM` fit: for the balanced
single-within-factor design the F statistic follows the classical
repeated-measures decomposition
`F = (SS_factor/(k-1)) / (SS_error/((n-1)(k-1)))`. -/
def anovaF (long : List MeltRow) : ℚ :=
  let xs := longTemps long
  let g := qMean xs
  let levels := levelsOf long
  let subs := subjectsOf long
  let k : ℚ := (levels.length : ℚ)
  let n : ℚ := (subs.length : ℚ)
  let ssFactor :=
    n * ((levels.map fun v =>
      (qMean ((long.filter fun r => r.sensor = v).filterMap fun r => r.temp) - g) ^ 2).sum)
  let ssSubject :=
    k * ((subs.map fun s =>
      (qMean ((long.filter fun r => r.ts = s).filterMap fun r => r.temp) - g) ^ 2).sum)
  let ssTotal := (xs.map fun x => (x - g) ^ 2).sum
  let ssError := ssTotal - ssFactor - ssSubject
  (ssFactor / (k - 1)) / (ssError / ((n - 1) * (k - 1)))

/-- The upper tail probability of an F distribution with `d1` and `d2`
degrees of freedom at `f`, via the regularized incomplete Beta function:
`P(F > f) = I_{d2/(d2+d1·f)}(d2/2, d1/2)`. -/
noncomputable def fPvalue (d1 d2 : ℕ) (f : ℝ) : ℝ :=
  regIncBeta ((d2 : ℝ) / 2) ((d1 : ℝ) / 2) ((d2 : ℝ) / ((d2 : ℝ) + (d1 : ℝ) * f))

/-- The `F Value` and `Pr > F` cells of the fitted table: 4-decimal
renderings when every temperature is present, `nan` otherwise (NaN values
flow through the least-squares fit into the table). -/
noncomputable def anovaCells (long : List MeltRow) : String × String :=
  if long.all fun r => r.temp.isSome then
    let d1 := (levelsOf long).length - 1
    let d2 := ((subjectsOf long).length - 1) * ((levelsOf long).length - 1)
    ((fmt4 ((anovaF long : ℚ) : ℝ)), fmt4 (fPvalue d1 d2 ((anovaF long : ℚ) : ℝ)))
  else ("nan", "nan")

/-- `str(anova_model.fit())`: the rendered ANOVA table, one data row for
the single within factor `Sensor`. -/
noncomputable def anovaTable (long : List MeltRow) : String :=
  let cells := anovaCells long
  let d1 := (levelsOf long).length - 1
  let d2 := ((subjectsOf long).length - 1) * ((levelsOf long).length - 1)
  "                 Anova\n" ++
    "======================================\n" ++
    "       F Value Num DF  Den DF  Pr > F\n" ++
    "--------------------------------------\n" ++
    "Sensor" ++ " " ++ cells.1 ++ " " ++ fmt4 (d1 : ℝ) ++ " " ++ fmt4 (d2 : ℝ) ++ " " ++
      cells.2 ++ "\n" ++
    "======================================\n"

/-- `AnovaRM(df_melted, 'Temperature', 'TIMESTAMP', within=['Sensor']).fit()`
then `str(...)`: the balance check of the constructor, then the rendered
table (an unbalanced frame raises, aborting the render). -/
noncomputable def anovaRMText (long : List MeltRow) : Except String String :=
  if anovaRMBalanced long then .ok (anovaTable long) else .error "Data is unbalanced."

/-- The second tab's callback `update_errorbars_plot`: the error-bar
figure, then the branch on the number of selected channels — exactly two
runs the paired t-test, more than two melts to long form and runs the
repeated-measures ANOVA (whose balance check may raise), anything else
leaves the summary text empty. -/
noncomputable def update_errorbars_plot (sel : List Channel) (tbl : List Row) :
    Except String (Figure × String) :=
  let fig := errorbarsFigure sel tbl
  match sel with
  | [s0, s1] =>
      .ok (fig, pairedText s0 s1 (ttest_rel (colSeries tbl s0) (colSeries tbl s1)))
  | _ =>
      if 2 < sel.length then
        (anovaRMText (melt sel tbl)).map fun txt => (fig, txt)
      else
        .ok (fig, "")

/-- A UI event: a new selection arriving at one of the two dropdowns. -/
inductive Event : Type
  | tempSelect : List Channel → Event
  | errorbarsSelect : List Channel → Event

/-- What one render produces: the first tab's figure, or the second tab's
figure and summary text (or its propagated failure). -/
inductive RenderResult : Type
  | temp : Figure → RenderResult
  | errorbars : Except String (Figure × String) → RenderResult

/-- The dispatcher: a selection change invokes the matching callback on
the process-wide resampled table; the callbacks only read that shared
state, so it is returned unchanged. -/
noncomputable def handleEvent (e : Event) (state : List Row) : RenderResult × List Row :=
  match e with
  | .tempSelect sel => (.temp (update_temp_plot sel state), state)
  | .errorbarsSelect sel => (.errorbars (update_errorbars_plot sel state), state)

/-- Substring containment: `needle` occurs contiguously inside `hay`. -/
def strContains (hay needle : String) : Prop :=
  ∃ pre post : String, hay = pre ++ needle ++ post

/-- The source readings of channel `c` in bucket `b` that are not the
sentinel — the values whose mean the masked pipeline takes. -/
def nonSentinelIn (rows : List SourceRow) (b : ℤ) (c : Channel) : List ℚ :=
  ((rows.filter fun r => bucketOf r.ts = b).map fun r => r.val c).filter fun x => x ≠ sentinel

/-- The rows start at `t0` and advance by exactly one 5-minute bucket per
row. -/
def AlignedFrom : ℤ → List Row → Prop
  | _, [] => True
  | t0, r :: rest => r.ts = t0 ∧ AlignedFrom (t0 + 5) rest

/-- A series already on the 5-minute bucket grid: its timestamps are the
contiguous grid of 5-minute bucket boundaries (the shape every resampled
series has, gap buckets being present as missing rows). -/
def Aligned (rows : List Row) : Prop :=
  match rows with
  | [] => True
  | r :: _ => 5 ∣ r.ts ∧ AlignedFrom r.ts rows

/-- Two source readings in the same 5-minute bucket whose mean is exactly
the sentinel value, though neither reading is the sentinel. -/
def rowsMeanSentinel : List SourceRow :=
  [{ ts := 0, val := fun _ => -9998 }, { ts := 1, val := fun _ => -10000 }]

/-- A one-reading source table. -/
def rowsSingle : List SourceRow :=
  [{ ts := 0, val := fun _ => 20 }]

/-- Six resampled buckets; channel 1370 is missing at the third bucket,
every other value is present. -/
def tblMissing1370 : List Row :=
  [ { ts := 0,  val := fun c => match c with | .c1331 => some 20 | .c1370 => some 20 | .c1376 => some 20 },
    { ts := 5,  val := fun c => match c with | .c1331 => some 21 | .c1370 => some 20 | .c1376 => some 20 },
    { ts := 10, val := fun c => match c with | .c1331 => some 22 | .c1370 => none    | .c1376 => some 20 },
    { ts := 15, val := fun c => match c with | .c1331 => some 23 | .c1370 => some 20 | .c1376 => some 20 },
    { ts := 20, val := fun c => match c with | .c1331 => some 24 | .c1370 => some 20 | .c1376 => some 20 },
    { ts := 25, val := fun c => match c with | .c1331 => some 25 | .c1370 => some 20 | .c1376 => some 20 } ]

/-- Six resampled buckets; channel 1331 is missing at the second bucket,
every other value is present. -/
def tblMissing1331 : List Row :=
  [ { ts := 0,  val := fun c => match c with | .c1331 => some 20 | .c1370 => some 20 | .c1376 => some 20 },
    { ts := 5,  val := fun c => match c with | .c1331 => none    | .c1370 => some 20 | .c1376 => some 20 },
    { ts := 10, val := fun c => match c with | .c1331 => some 22 | .c1370 => some 20 | .c1376 => some 20 },
    { ts := 15, val := fun c => match c with | .c1331 => some 23 | .c1370 => some 20 | .c1376 => some 20 },
    { ts := 20, val := fun c => match c with | .c1331 => some 24 | .c1370 => some 20 | .c1376 => some 20 },
    { ts := 25, val := fun c => match c with | .c1331 => some 25 | .c1370 => some 20 | .c1376 => some 20 } ]

/-- Six fully-present resampled buckets: channel 1331 trends upward
20..25, channels 1370 and 1376 are constant at 20 (the end-to-end
scenario of the specification). -/
def tblTrend : List Row :=
  [ { ts := 0,  val := fun c => match c with | .c1331 => some 20 | .c1370 => some 20 | .c1376 => some 20 },
    { ts := 5,  val := fun c => match c with | .c1331 => some 21 | .c1370 => some 20 | .c1376 => some 20 },
    { ts := 10, val := fun c => match c with | .c1331 => some 22 | .c1370 => some 20 | .c1376 => some 20 },
    { ts := 15, val := fun c => match c with | .c1331 => some 23 | .c1370 => some 20 | .c1376 => some 20 },
    { ts := 20, val := fun c => match c with | .c1331 => some 24 | .c1370 => some 20 | .c1376 => some 20 },
    { ts := 25, val := fun c => match c with | .c1331 => some 25 | .c1370 => some 20 | .c1376 => some 20 } ]

/-- A two-bucket series already on the 5-minute grid, with one missing
value. -/
def tblAligned : List Row :=
  [ { ts := 0, val := fun _ => some 20 }, { ts := 5, val := fun _ => none } ]

/-! ## Helper lemmas -/

theorem foldl_addTrace (l : List Channel) (f : Channel → Trace) (fig : Figure) :
    (l.foldl (fun g c => addTrace g (f c)) fig).traces = fig.traces ++ l.map f := by
  induction l generalizing fig with
  | nil => simp
  | cons c cs ih =>
      rw [List.foldl_cons, ih]
      simp [addTrace]

theorem update_temp_plot_traces (sel : List Channel) (tbl : List Row) :
    (update_temp_plot sel tbl).traces = sel.map (tempTrace tbl) := by
  simp [update_temp_plot, tempLayout, foldl_addTrace]

theorem errorbarsFigure_traces (sel : List Channel) (tbl : List Row) :
    (errorbarsFigure sel tbl).traces = sel.map (errTrace tbl) := by
  simp [errorbarsFigure, errorbarsLayout, foldl_addTrace]

/-! ## Claims -/

/-- C10: the sentinel replacement runs after the timestamp column has
become the index, so loading preserves every parsed timestamp — the
timestamp sequence of the Time-Indexed Table equals the timestamp
sequence of the parsed source rows, whatever their values (a timestamp
equal to `-9999` included). -/
theorem c10_replacement_preserves_timestamps :
    ∀ rows : List SourceRow, (df rows).map (fun r => r.ts) = rows.map fun r => r.ts := by
  intro rows
  simp [df, replaceSentinel, set_index]

/-- C9: every invocation of either callback returns the shared resampled
table unchanged — the callbacks read the table and write nothing. -/
theorem c9_callbacks_leave_state_unchanged :
    ∀ (e : Event) (state : List Row), (handleEvent e state).2 = state := by
  intro e state
  cases e <;> rfl

/-- C7: `update_temp_plot` returns one line+marker trace per selected
channel, in selection order, with x the resampled bucket timestamps and y
that channel's resampled values; the empty selection gives a figure with
no traces (and no error, the function being total). -/
theorem c7_temp_plot_one_trace_per_channel :
    ∀ (sel : List Channel) (tbl : List Row),
      ((update_temp_plot sel tbl).traces.length = sel.length) ∧
      (∀ k : ℕ, (update_temp_plot sel tbl).traces.get? k =
        (sel.get? k).map fun c =>
          { x := tbl.map fun r => r.ts
            y := colSeries tbl c
            mode := "lines+markers"
            name := channelName c
            error_y := none }) ∧
      ((update_temp_plot [] tbl).traces = []) := by
  intro sel tbl
  refine ⟨?_, ?_, ?_⟩
  · simp [update_temp_plot_traces]
  · intro k
    simp only [update_temp_plot_traces, List.get?_eq_getElem?, List.getElem?_map]
    cases sel[k]? <;> rfl
  · simp [update_temp_plot_traces]

/-- C5: with zero or one selected channels the second tab performs no
test and returns the empty summary text (alongside the figure). -/
theorem c5_small_selection_empty_text (sel : List Channel) (tbl : List Row)
    (h : sel.length ≤ 1) :
    update_errorbars_plot sel tbl = .ok (errorbarsFigure sel tbl, "") := by
  match sel with
  | [] => rfl
  | [c] => rfl
  | a :: b :: rest => simp at h

/-- Witness for C5 at the empty selection. -/
theorem c5_small_selection_empty_text_witness :
    update_errorbars_plot [] tblTrend = .ok (errorbarsFigure [] tblTrend, "") :=
  c5_small_selection_empty_text [] tblTrend (by decide)

theorem resample_val (rows : List Row) (r : Row) (h : r ∈ resample rows) (c : Channel) :
    r.val c = meanOpt (bucketVals rows r.ts c) := by
  cases rows with
  | nil => simp [resample] at h
  | cons r0 rest =>
      simp only [resample, List.mem_map, List.mem_range] at h
      obtain ⟨i, _, rfl⟩ := h
      rfl

theorem bucketVals_df (rows : List SourceRow) (b : ℤ) (c : Channel) :
    bucketVals (df rows) b c = nonSentinelIn rows b c := by
  induction rows with
  | nil => rfl
  | cons r rs ih =>
      by_cases hb : bucketOf r.ts = b
      · by_cases hs : r.val c = sentinel <;>
          simp [bucketVals, nonSentinelIn, df, replaceSentinel, set_index, List.filter_cons,
            hb, hs] <;>
          simpa [bucketVals, nonSentinelIn, df, replaceSentinel, set_index] using ih
      · simp [bucketVals, nonSentinelIn, df, replaceSentinel, set_index, List.filter_cons, hb]
        simpa [bucketVals, nonSentinelIn, df, replaceSentinel, set_index] using ih

/-- C3, counterexample to the claim as stated: two non-sentinel readings
in one bucket (`-9998` and `-10000`) average to exactly `-9999`, so the
sentinel value does appear as a Resampled Series value. -/
theorem c3_sentinel_value_counterexample :
    (df_resampled rowsMeanSentinel).map (fun r => r.val Channel.c1331) = [some sentinel] := by
  have h1 : df_resampled rowsMeanSentinel
      = [{ ts := 0, val := fun _ => meanOpt [-9998, -10000] }] := rfl
  rw [h1]
  norm_num [meanOpt, sentinel]

/-- C3, amended: every value of a Resampled Series is the mean of the
non-sentinel readings of its bucket (missing when the bucket has none) —
sentinel occurrences are masked before resampling and never contribute,
though the mean of genuine readings may still coincide with `-9999`. -/
theorem c3_amended_resampled_values_are_masked_means (rows : List SourceRow) (r : Row)
    (h : r ∈ df_resampled rows) (c : Channel) :
    r.val c = meanOpt (nonSentinelIn rows r.ts c) := by
  rw [resample_val (df rows) r h c, bucketVals_df]

/-- Witness for C3's amended theorem on a one-reading table. -/
theorem c3_amended_witness :
    ({ ts := 0, val := fun _ => meanOpt [20] } : Row).val Channel.c1331
      = meanOpt (nonSentinelIn rowsSingle 0 Channel.c1331) :=
  c3_amended_resampled_values_are_masked_means rowsSingle _ (List.mem_singleton_self _)
    Channel.c1331

/-- C1, counterexample to the claim as stated: with one bucket missing in
channel 1370 the paired test does not fall back to the five buckets
present in both channels — under the default `nan_policy` its result is
NaN (undefined), even though five aligned pairs are available. -/
theorem c1_missing_bucket_counterexample :
    ttest_rel (colSeries tblMissing1370 Channel.c1331) (colSeries tblMissing1370 Channel.c1370)
        = .nan ∧
    ((List.zipWith pairDiff (colSeries tblMissing1370 Channel.c1331)
        (colSeries tblMissing1370 Channel.c1370)).filterMap id).length = 5 :=
  ⟨rfl, rfl⟩

/-- C1, amended: a bucket with a missing resampled value in either of the
two selected channels never aborts the test (the function is total) but
makes its result NaN — the test uses all index-aligned pairs only when
every bucket is present on both sides, and does not drop missing pairs. -/
theorem c1_amended_missing_pair_gives_nan (a b : List (Option ℚ)) (i : ℕ)
    (h : (List.zipWith pairDiff a b).get? i = some none) :
    ttest_rel a b = .nan := by
  have hmem : (none : Option ℚ) ∈ List.zipWith pairDiff a b := List.get?_mem h
  simp only [ttest_rel]
  rw [if_neg]
  rintro ⟨hall, -⟩
  simpa using hall none hmem

/-- Witness for C1's amended theorem: a missing value at index 1. -/
theorem c1_amended_witness :
    ttest_rel [some 1, none, some 3] [some 1, some 2, some 3] = .nan :=
  c1_amended_missing_pair_gives_nan [some 1, none, some 3] [some 1, some 2, some 3] 1 rfl

theorem windowAt_length_le (s : List (Option ℚ)) (i : ℕ) :
    (windowAt s i).length ≤ i + 1 := by
  simp only [windowAt, List.length_drop, List.length_take]
  omega

theorem windowAt_length_le_five (s : List (Option ℚ)) (i : ℕ) :
    (windowAt s i).length ≤ 5 := by
  simp only [windowAt, List.length_drop, List.length_take]
  omega

theorem filterMap_id_all_some (l : List (Option ℚ))
    (h : l.length ≤ (l.filterMap id).length) : l = (l.filterMap id).map some := by
  induction l with
  | nil => rfl
  | cons o t ih =>
      cases o with
      | none =>
          exfalso
          have hr : List.filterMap id (none :: t) = List.filterMap id t := rfl
          rw [hr] at h
          have := List.length_filterMap_le id t
          simp only [List.length_cons] at h
          omega
      | some a =>
          have hr : List.filterMap id (some a :: t) = a :: List.filterMap id t := rfl
          rw [hr] at h ⊢
          simp only [List.length_cons, Nat.add_le_add_iff_right] at h
          simp only [List.map_cons, List.cons.injEq, true_and]
          exact ih h

/-- C2: the per-point uncertainty attached as `error_y` to every trace of
the error-bars chart is the 5-bucket trailing rolling standard deviation
of that channel's resampled series; positions `0..3` carry a missing
value (not zero), and a present value at position `i` forces `i ≥ 4` and
equals the sample standard deviation of the 5 present window values. -/
theorem c2_error_bars_rolling_std :
    ∀ (sel : List Channel) (tbl : List Row) (k : ℕ) (s : List (Option ℚ)) (i : ℕ),
      ((((errorbarsFigure sel tbl).traces.get? k).map fun t => t.error_y.map fun ey => ey.array)
          = (sel.get? k).map fun c => some (rollingStd (colSeries tbl c))) ∧
      ((rollingStd s).length = s.length) ∧
      (i < 4 → (rollingStd s).get? i = if i < s.length then some none else none) ∧
      (∀ e : ℝ, (rollingStd s).get? i = some (some e) →
        4 ≤ i ∧ ∃ w : List ℚ, (s.drop (i - 4)).take 5 = w.map some ∧ w.length = 5 ∧
          e = Real.sqrt ((sampleVar w : ℚ) : ℝ)) := by
  intro sel tbl k s i
  refine ⟨?_, ?_, ?_, ?_⟩
  · simp only [errorbarsFigure_traces, List.get?_eq_getElem?, List.getElem?_map]
    cases sel[k]? <;> rfl
  · simp [rollingStd]
  · intro h4
    by_cases hi : i < s.length
    · have hlen : ¬ 5 ≤ ((windowAt s i).filterMap id).length := by
        have h1 := List.length_filterMap_le id (windowAt s i)
        have h2 := windowAt_length_le s i
        omega
      simp [rollingStd, rollingStdAt, hi, hlen]
    · simp only [if_neg hi]
      rw [List.get?_eq_none.mpr]
      simp only [rollingStd, List.length_map, List.length_range]
      omega
  · intro e h
    have hi : i < s.length := by
      by_contra hi
      rw [List.get?_eq_none.mpr (by simp [rollingStd]; omega)] at h
      exact Option.noConfusion h
    have hval : rollingStdAt s i = some e := by
      simpa [rollingStd, List.get?_eq_getElem?, List.getElem?_map, List.getElem?_range, hi]
        using h
    rw [rollingStdAt] at hval
    have h1 := List.length_filterMap_le id (windowAt s i)
    have h2 := windowAt_length_le s i
    have h5 := windowAt_length_le_five s i
    by_cases hlen : 5 ≤ ((windowAt s i).filterMap id).length
    · rw [if_pos hlen] at hval
      have he : e = Real.sqrt ((sampleVar ((windowAt s i).filterMap id) : ℚ) : ℝ) :=
        (Option.some.inj hval).symm
      have h4 : 4 ≤ i := by omega
      have hw : windowAt s i = (s.drop (i - 4)).take 5 := by
        rw [windowAt, List.drop_take]
        congr 1
        omega
      have hall : windowAt s i = ((windowAt s i).filterMap id).map some :=
        filterMap_id_all_some _ (by omega)
      refine ⟨h4, (windowAt s i).filterMap id, ?_, by omega, he⟩
      rw [← hw]
      exact hall
    · rw [if_neg hlen] at hval
      exact absurd hval (by simp)

theorem bucketOf_of_dvd {t : ℤ} (h : 5 ∣ t) : bucketOf t = t := by
  obtain ⟨k, rfl⟩ := h
  rw [bucketOf, Int.mul_fdiv_cancel_left _ (by norm_num)]

theorem alignedFrom_ts_get (t0 : ℤ) (rows : List Row) (h : AlignedFrom t0 rows) :
    ∀ (i : ℕ) (hi : i < rows.length), (rows.get ⟨i, hi⟩).ts = t0 + 5 * i := by
  induction rows generalizing t0 with
  | nil => intro i hi; simp at hi
  | cons r rest ih =>
      obtain ⟨h0, hrest⟩ := h
      intro i hi
      cases i with
      | zero => simpa using h0
      | succ j =>
          have hj := ih (t0 + 5) hrest j (by simpa using hi)
          simp only [List.get_cons_succ] at *
          rw [hj]
          push_cast
          ring

theorem alignedFrom_mem_ts (t0 : ℤ) (rows : List Row) (h : AlignedFrom t0 rows)
    (r : Row) (hr : r ∈ rows) : ∃ i : ℕ, i < rows.length ∧ r.ts = t0 + 5 * i := by
  obtain ⟨⟨i, hi⟩, rfl⟩ := List.mem_iff_get.mp hr
  exact ⟨i, hi, alignedFrom_ts_get t0 rows h i hi⟩

theorem foldl_min_eq_init (a : ℤ) (l : List ℤ) (h : ∀ x ∈ l, a ≤ x) : l.foldl min a = a := by
  induction l with
  | nil => rfl
  | cons x xs ih =>
      rw [List.foldl_cons, min_eq_left (h x (by simp))]
      exact ih fun y hy => h y (by simp [hy])

theorem le_foldl_max (a : ℤ) (l : List ℤ) : a ≤ l.foldl max a := by
  induction l generalizing a with
  | nil => exact le_refl a
  | cons x xs ih =>
      rw [List.foldl_cons]
      exact le_trans (le_max_left a x) (ih (max a x))

theorem mem_le_foldl_max (a x : ℤ) (l : List ℤ) (hx : x ∈ l) : x ≤ l.foldl max a := by
  induction l generalizing a with
  | nil => simp at hx
  | cons y ys ih =>
      rw [List.foldl_cons]
      rcases List.mem_cons.mp hx with rfl | hx'
      · exact le_trans (le_max_right a x) (le_foldl_max (max a x) ys)
      · exact ih (max a y) hx'

theorem foldl_max_le (a m : ℤ) (l : List ℤ) (ha : a ≤ m) (h : ∀ x ∈ l, x ≤ m) :
    l.foldl max a ≤ m := by
  induction l generalizing a with
  | nil => exact ha
  | cons x xs ih =>
      rw [List.foldl_cons]
      exact ih (max a x) (max_le ha (h x (by simp))) fun y hy => h y (by simp [hy])

theorem alignedFrom_filter_ts (t0 : ℤ) (rows : List Row) (h : AlignedFrom t0 rows)
    (i : ℕ) (hi : i < rows.length) :
    (rows.filter fun r => r.ts = t0 + 5 * (i : ℤ)) = [rows.get ⟨i, hi⟩] := by
  induction rows generalizing t0 i with
  | nil => simp at hi
  | cons r rest ih =>
      obtain ⟨h0, hrest⟩ := h
      cases i with
      | zero =>
          rw [List.filter_cons_of_pos (by simp [h0])]
          suffices hnil : (rest.filter fun r => r.ts = t0 + 5 * ((0 : ℕ) : ℤ)) = [] by
            rw [hnil]; rfl
          rw [List.filter_eq_nil_iff]
          intro r' hr'
          obtain ⟨j, _, hj⟩ := alignedFrom_mem_ts (t0 + 5) rest hrest r' hr'
          simp only [decide_eq_true_eq]
          omega
      | succ j =>
          rw [List.filter_cons_of_neg (by simp only [decide_eq_true_eq]; omega)]
          have hkey : t0 + 5 * ((j + 1 : ℕ) : ℤ) = (t0 + 5) + 5 * (j : ℤ) := by
            push_cast; ring
          rw [hkey]
          exact ih (t0 + 5) hrest j (by simpa using hi)

/-- C8: resampling is idempotent — applied to a series already on the
contiguous 5-minute bucket grid (the shape of every resampled series),
the 5-minute resampling transform returns exactly that series. -/
theorem c8_resample_idempotent_on_aligned (rows : List Row) (h : Aligned rows) :
    resample rows = rows := by
  cases rows with
  | nil => rfl
  | cons r0 rest =>
      obtain ⟨hdvd, haf⟩ : 5 ∣ r0.ts ∧ AlignedFrom r0.ts (r0 :: rest) := h
      have hrest : AlignedFrom (r0.ts + 5) rest := haf.2
      have hts := alignedFrom_ts_get r0.ts (r0 :: rest) haf
      have hdvd_all : ∀ r ∈ r0 :: rest, 5 ∣ r.ts := by
        intro r hr
        obtain ⟨i, _, hi⟩ := alignedFrom_mem_ts r0.ts (r0 :: rest) haf r hr
        exact hi ▸ dvd_add hdvd (Dvd.intro _ rfl)
      have hbuck : ∀ r ∈ r0 :: rest, bucketOf r.ts = r.ts := fun r hr =>
        bucketOf_of_dvd (hdvd_all r hr)
      have hb0 : bucketOf r0.ts = r0.ts := hbuck r0 (by simp)
      have hmem_ts : ∀ x ∈ rest.map fun r => bucketOf r.ts,
          ∃ j : ℕ, j < rest.length ∧ x = r0.ts + 5 * (j + 1 : ℤ) := by
        intro x hx
        obtain ⟨r', hr', rfl⟩ := List.mem_map.mp hx
        obtain ⟨j, hj, hj'⟩ := alignedFrom_mem_ts (r0.ts + 5) rest hrest r' hr'
        exact ⟨j, hj, by rw [hbuck r' (by simp [hr']), hj']; ring⟩
      have hlo : (rest.map fun r => bucketOf r.ts).foldl min (bucketOf r0.ts) = r0.ts := by
        rw [hb0]
        refine foldl_min_eq_init _ _ fun x hx => ?_
        obtain ⟨j, _, rfl⟩ := hmem_ts x hx
        omega
      have hhi : (rest.map fun r => bucketOf r.ts).foldl max (bucketOf r0.ts)
          = r0.ts + 5 * (rest.length : ℤ) := by
        rw [hb0]
        rcases Nat.eq_zero_or_pos rest.length with hL | hL
        · rw [List.length_eq_zero.mp hL]
          simp [hL, List.length_eq_zero.mp hL]
        · refine le_antisymm ?_ ?_
          · refine foldl_max_le _ _ _ (by omega) fun x hx => ?_
            obtain ⟨j, hj, rfl⟩ := hmem_ts x hx
            omega
          · have hjlt : rest.length - 1 < rest.length := by omega
            have hlast : r0.ts + 5 * (rest.length : ℤ)
                ∈ rest.map fun r => bucketOf r.ts := by
              refine List.mem_map.mpr ⟨rest.get ⟨rest.length - 1, hjlt⟩,
                List.get_mem _ _ hjlt, ?_⟩
              rw [hbuck _ (List.mem_cons_of_mem _ (List.get_mem _ _ hjlt)),
                alignedFrom_ts_get (r0.ts + 5) rest hrest (rest.length - 1) hjlt]
              have hc : ((rest.length - 1 : ℕ) : ℤ) = (rest.length : ℤ) - 1 := by
                omega
              rw [hc]
              ring
            exact mem_le_foldl_max _ _ _ hlast
      have hfilter : ∀ (i : ℕ) (hi : i < (r0 :: rest).length) (c : Channel),
          bucketVals (r0 :: rest) (r0.ts + 5 * (i : ℤ)) c
            = Option.toList (((r0 :: rest).get ⟨i, hi⟩).val c) := by
        intro i hi c
        have hcongr : ((r0 :: rest).filter fun r => bucketOf r.ts = r0.ts + 5 * (i : ℤ))
            = (r0 :: rest).filter fun r => r.ts = r0.ts + 5 * (i : ℤ) :=
          List.filter_congr fun r hr => by rw [hbuck r hr]
        simp only [bucketVals]
        rw [hcongr, alignedFrom_filter_ts r0.ts (r0 :: rest) haf i hi]
        cases hv : (r0 :: rest)[i].val c <;>
          simp [List.filterMap_cons, List.get_eq_getElem, hv, Option.toList]
      simp only [resample]
      rw [hlo, hhi]
      have hn : ((r0.ts + 5 * (rest.length : ℤ) - r0.ts).toNat / 5) + 1 = rest.length + 1 := by
        omega
      rw [hn]
      refine List.ext_get ?_ ?_
      · rw [List.length_map, List.length_range]
        rfl
      · intro i hi1 hi2
        have hi' : i < rest.length + 1 := by
          rw [List.length_map, List.length_range] at hi1
          exact hi1
        rw [List.get_eq_getElem, List.getElem_map, List.getElem_range]
        show Row.mk (r0.ts + 5 * (i : ℤ))
            (fun c => meanOpt (bucketVals (r0 :: rest) (r0.ts + 5 * (i : ℤ)) c))
          = (r0 :: rest).get ⟨i, hi2⟩
        refine Row.ext ?_ ?_
        · exact (hts i hi2).symm
        · funext c
          show meanOpt (bucketVals (r0 :: rest) (r0.ts + 5 * (i : ℤ)) c)
            = ((r0 :: rest).get ⟨i, hi2⟩).val c
          rw [hfilter i hi2 c]
          cases hv : ((r0 :: rest).get ⟨i, hi2⟩).val c <;>
            simp [hv, meanOpt, Option.toList]

/-- Witness for C8 on a two-bucket grid series with one missing value. -/
theorem c8_resample_idempotent_witness : resample tblAligned = tblAligned :=
  c8_resample_idempotent_on_aligned tblAligned ⟨⟨0, rfl⟩, rfl, rfl, trivial⟩

theorem betaKernel_nonneg (a b : ℝ) {u : ℝ} (h0 : 0 ≤ u) (h1 : u ≤ 1) :
    0 ≤ betaKernel a b u :=
  mul_nonneg (Real.rpow_nonneg h0 _) (Real.rpow_nonneg (by linarith) _)

theorem betaKernel_pos (a b : ℝ) {u : ℝ} (h0 : 0 < u) (h1 : u < 1) :
    0 < betaKernel a b u :=
  mul_pos (Real.rpow_pos_of_pos h0 _) (Real.rpow_pos_of_pos (by linarith) _)

theorem betaKernel_intervalIntegrable {a b : ℝ} (ha : 0 < a) (hb : 0 < b) :
    IntervalIntegrable (betaKernel a b) MeasureTheory.volume 0 1 := by
  have h := Complex.betaIntegral_convergent (u := (a : ℂ)) (v := (b : ℂ))
    (by simpa using ha) (by simpa using hb)
  rw [intervalIntegrable_iff_integrableOn_Ioc_of_le zero_le_one] at h ⊢
  have h2 : MeasureTheory.IntegrableOn
      (fun x : ℝ => RCLike.re ((x : ℂ) ^ ((a : ℂ) - 1) * (1 - (x : ℂ)) ^ ((b : ℂ) - 1)))
      (Set.Ioc (0 : ℝ) 1) MeasureTheory.volume := h.re
  refine h2.congr_fun (fun x hx => ?_) measurableSet_Ioc
  obtain ⟨hx0, hx1⟩ := hx
  have e1 : (x : ℂ) ^ ((a : ℂ) - 1) = ((x ^ (a - 1) : ℝ) : ℂ) := by
    rw [show ((a : ℂ) - 1) = ((a - 1 : ℝ) : ℂ) by push_cast; ring,
      ← Complex.ofReal_cpow hx0.le]
  have e2 : (1 - (x : ℂ)) ^ ((b : ℂ) - 1) = (((1 - x) ^ (b - 1) : ℝ) : ℂ) := by
    rw [show (1 - (x : ℂ)) = ((1 - x : ℝ) : ℂ) by push_cast; ring,
      show ((b : ℂ) - 1) = ((b - 1 : ℝ) : ℂ) by push_cast; ring,
      ← Complex.ofReal_cpow (by linarith)]
  rw [e1, e2, ← Complex.ofReal_mul]
  simp [betaKernel]

theorem incBeta_nonneg (a b : ℝ) {x : ℝ} (h0 : 0 ≤ x) (h1 : x ≤ 1) :
    0 ≤ incBeta a b x :=
  intervalIntegral.integral_nonneg h0 fun _ hu =>
    betaKernel_nonneg a b hu.1 (le_trans hu.2 h1)

theorem incBeta_le_incBeta_one {a b x : ℝ} (ha : 0 < a) (hb : 0 < b)
    (h0 : 0 ≤ x) (h1 : x ≤ 1) : incBeta a b x ≤ incBeta a b 1 := by
  refine intervalIntegral.integral_mono_interval le_rfl h0 h1 ?_
    (betaKernel_intervalIntegrable ha hb)
  refine (MeasureTheory.ae_restrict_iff' measurableSet_Ioc).mpr
    (MeasureTheory.ae_of_all _ fun _ hu => ?_)
  exact betaKernel_nonneg a b hu.1.le hu.2

theorem incBeta_one_pos {a b : ℝ} (ha : 0 < a) (hb : 0 < b) : 0 < incBeta a b 1 :=
  intervalIntegral.intervalIntegral_pos_of_pos_on (betaKernel_intervalIntegrable ha hb)
    (fun _ hu => betaKernel_pos a b hu.1 hu.2) one_pos

theorem regIncBeta_nonneg {a b x : ℝ} (ha : 0 < a) (hb : 0 < b)
    (h0 : 0 ≤ x) (h1 : x ≤ 1) : 0 ≤ regIncBeta a b x :=
  div_nonneg (incBeta_nonneg a b h0 h1) (incBeta_one_pos ha hb).le

theorem regIncBeta_le_one {a b x : ℝ} (ha : 0 < a) (hb : 0 < b)
    (h0 : 0 ≤ x) (h1 : x ≤ 1) : regIncBeta a b x ≤ 1 :=
  (div_le_one (incBeta_one_pos ha hb)).mpr (incBeta_le_incBeta_one ha hb h0 h1)

theorem tPvalue_mem_Icc (ν : ℕ) (hν : 1 ≤ ν) (t : ℝ) :
    tPvalue ν t ∈ Set.Icc (0 : ℝ) 1 := by
  have hν' : (0 : ℝ) < ν := by exact_mod_cast hν
  have hden : (0 : ℝ) < (ν : ℝ) + t ^ 2 := by positivity
  have hx0 : 0 ≤ (ν : ℝ) / ((ν : ℝ) + t ^ 2) := by positivity
  have hx1 : (ν : ℝ) / ((ν : ℝ) + t ^ 2) ≤ 1 := by
    rw [div_le_one hden]
    nlinarith [sq_nonneg t]
  have ha : 0 < (ν : ℝ) / 2 := by positivity
  have hb : 0 < (1 : ℝ) / 2 := by norm_num
  exact ⟨regIncBeta_nonneg ha hb hx0 hx1, regIncBeta_le_one ha hb hx0 hx1⟩

theorem zipWith_pairDiff_isSome {a b : List (Option ℚ)}
    (ha : ∀ o ∈ a, o.isSome) (hb : ∀ o ∈ b, o.isSome) :
    ∀ o ∈ List.zipWith pairDiff a b, o.isSome := by
  induction a generalizing b with
  | nil => simp
  | cons u us ih =>
      cases b with
      | nil => simp
      | cons v vs =>
          intro o ho
          rw [List.zipWith_cons_cons] at ho
          rcases List.mem_cons.mp ho with rfl | ho'
          · obtain ⟨u', rfl⟩ := Option.isSome_iff_exists.mp (ha u (by simp))
            obtain ⟨v', rfl⟩ := Option.isSome_iff_exists.mp (hb v (by simp))
            rfl
          · exact ih (fun o h => ha o (List.mem_cons_of_mem _ h))
              (fun o h => hb o (List.mem_cons_of_mem _ h)) o ho'

theorem filterMap_id_length_eq {l : List (Option ℚ)} (h : ∀ o ∈ l, o.isSome) :
    (l.filterMap id).length = l.length := by
  induction l with
  | nil => rfl
  | cons o t ih =>
      obtain ⟨v, rfl⟩ := Option.isSome_iff_exists.mp (h o (by simp))
      have hr : List.filterMap id (some v :: t) = v :: List.filterMap id t := rfl
      rw [hr, List.length_cons, List.length_cons,
        ih fun o ho => h o (List.mem_cons_of_mem _ ho)]

theorem ttest_rel_eq_ok (a b : List (Option ℚ))
    (hall : ∀ o ∈ List.zipWith pairDiff a b, o.isSome)
    (hlen : 2 ≤ (List.zipWith pairDiff a b).length)
    (hv : sampleVar ((List.zipWith pairDiff a b).filterMap id) ≠ 0) :
    ttest_rel a b
      = .ok (tStatOf a b)
          (tPvalue (((List.zipWith pairDiff a b).filterMap id).length - 1) (tStatOf a b)) := by
  simp only [ttest_rel]
  rw [if_pos ⟨hall, hlen⟩, if_neg hv]

/-- C4, counterexample to the claim as stated: with a missing bucket in
channel 1331 the two-channel summary text reads `nan` for both the
statistic and the p-value — there is no p-value in `[0, 1]` formatted to
four decimal places. -/
theorem c4_nan_text_counterexample :
    ttest_rel (colSeries tblMissing1331 Channel.c1331) (colSeries tblMissing1331 Channel.c1370)
        = .nan ∧
    update_errorbars_plot [Channel.c1331, Channel.c1370] tblMissing1331
      = .ok (errorbarsFigure [Channel.c1331, Channel.c1370] tblMissing1331,
          "Paired t-test between TempC_target_1331 and TempC_target_1370:\n" ++
            "t-stat = nan, p-value = nan") :=
  ⟨rfl, rfl⟩

/-- C4, amended: for two selected channels whose resampled series are
fully present, hold at least two buckets and whose paired differences are
not all equal, the callback returns the paired-test summary: it is
labeled with both channel names and reports the statistic and a two-sided
p-value lying in `[0, 1]`, each formatted to 4 decimal places.  (When a
bucket is missing on either side, or the differences are constant, both
fields render as `nan`/`inf` instead.) -/
theorem c4_amended_two_channel_summary (tbl : List Row) (x y : Channel)
    (hx : ∀ o ∈ colSeries tbl x, o.isSome)
    (hy : ∀ o ∈ colSeries tbl y, o.isSome)
    (hn : 2 ≤ tbl.length)
    (hv : sampleVar ((List.zipWith pairDiff (colSeries tbl x) (colSeries tbl y)).filterMap id)
      ≠ 0) :
    ∃ t p : ℝ,
      ttest_rel (colSeries tbl x) (colSeries tbl y) = .ok t p ∧
      0 ≤ p ∧ p ≤ 1 ∧
      update_errorbars_plot [x, y] tbl
        = .ok (errorbarsFigure [x, y] tbl, pairedText x y (.ok t p)) ∧
      pairedText x y (.ok t p)
        = "Paired t-test between " ++ channelName x ++ " and " ++ channelName y ++ ":\n" ++
            "t-stat = " ++ fmt4 t ++ ", p-value = " ++ fmt4 p ∧
      strContains (pairedText x y (.ok t p)) (channelName x) ∧
      strContains (pairedText x y (.ok t p)) (channelName y) ∧
      strContains (pairedText x y (.ok t p)) (fmt4 t) ∧
      strContains (pairedText x y (.ok t p)) (fmt4 p) := by
  have hall : ∀ o ∈ List.zipWith pairDiff (colSeries tbl x) (colSeries tbl y), o.isSome :=
    zipWith_pairDiff_isSome hx hy
  have hdlen : (List.zipWith pairDiff (colSeries tbl x) (colSeries tbl y)).length
      = tbl.length := by
    simp [List.length_zipWith, colSeries]
  have hdslen : ((List.zipWith pairDiff (colSeries tbl x) (colSeries tbl y)).filterMap id).length
      = tbl.length := by
    rw [filterMap_id_length_eq hall, hdlen]
  have hteq := ttest_rel_eq_ok (colSeries tbl x) (colSeries tbl y) hall (by omega) hv
  have hν : 1 ≤ ((List.zipWith pairDiff (colSeries tbl x) (colSeries tbl y)).filterMap id).length
      - 1 := by omega
  set t := tStatOf (colSeries tbl x) (colSeries tbl y) with htdef
  set p := tPvalue
    (((List.zipWith pairDiff (colSeries tbl x) (colSeries tbl y)).filterMap id).length - 1) t
    with hpdef
  have hp := tPvalue_mem_Icc _ hν t
  rw [← hpdef] at hp
  refine ⟨t, p, hteq, hp.1, hp.2, ?_, rfl, ?_, ?_, ?_, ?_⟩
  · have hplot : update_errorbars_plot [x, y] tbl
        = .ok (errorbarsFigure [x, y] tbl,
            pairedText x y (ttest_rel (colSeries tbl x) (colSeries tbl y))) := rfl
    rw [hplot, hteq]
  · exact ⟨"Paired t-test between ", " and " ++ channelName y ++ ":\n" ++ "t-stat = " ++
      fmt4 t ++ ", p-value = " ++ fmt4 p,
      by simp [pairedText, tStatStr, pValueStr, String.append_assoc]⟩
  · exact ⟨"Paired t-test between " ++ channelName x ++ " and ", ":\n" ++ "t-stat = " ++
      fmt4 t ++ ", p-value = " ++ fmt4 p,
      by simp [pairedText, tStatStr, pValueStr, String.append_assoc]⟩
  · exact ⟨"Paired t-test between " ++ channelName x ++ " and " ++ channelName y ++ ":\n" ++
      "t-stat = ", ", p-value = " ++ fmt4 p,
      by simp [pairedText, tStatStr, pValueStr, String.append_assoc]⟩
  · exact ⟨"Paired t-test between " ++ channelName x ++ " and " ++ channelName y ++ ":\n" ++
      "t-stat = " ++ fmt4 t ++ ", p-value = ", "",
      by simp [pairedText, tStatStr, pValueStr, String.append_assoc]⟩

/-- Witness for C4's amended theorem on the trending-versus-constant
scenario table. -/
theorem c4_amended_witness :
    ∃ t p : ℝ,
      ttest_rel (colSeries tblTrend Channel.c1331) (colSeries tblTrend Channel.c1370)
          = .ok t p ∧
      0 ≤ p ∧ p ≤ 1 ∧
      update_errorbars_plot [Channel.c1331, Channel.c1370] tblTrend
        = .ok (errorbarsFigure [Channel.c1331, Channel.c1370] tblTrend,
            pairedText Channel.c1331 Channel.c1370 (.ok t p)) ∧
      pairedText Channel.c1331 Channel.c1370 (.ok t p)
        = "Paired t-test between " ++ channelName Channel.c1331 ++ " and " ++
            channelName Channel.c1370 ++ ":\n" ++
            "t-stat = " ++ fmt4 t ++ ", p-value = " ++ fmt4 p ∧
      strContains (pairedText Channel.c1331 Channel.c1370 (.ok t p))
        (channelName Channel.c1331) ∧
      strContains (pairedText Channel.c1331 Channel.c1370 (.ok t p))
        (channelName Channel.c1370) ∧
      strContains (pairedText Channel.c1331 Channel.c1370 (.ok t p)) (fmt4 t) ∧
      strContains (pairedText Channel.c1331 Channel.c1370 (.ok t p)) (fmt4 p) :=
  c4_amended_two_channel_summary tblTrend Channel.c1331 Channel.c1370
    (by decide) (by decide) (by decide)
    (by
      have hds : (List.zipWith pairDiff (colSeries tblTrend Channel.c1331)
          (colSeries tblTrend Channel.c1370)).filterMap id
          = [20 - 20, 21 - 20, 22 - 20, 23 - 20, 24 - 20, 25 - 20] := rfl
      rw [hds]
      norm_num [sampleVar])

theorem channelName_injective : Function.Injective channelName := by
  intro a b h
  cases a <;> cases b <;> first | rfl | exact absurd h (by decide)

theorem resample_ts_nodup (rows : List Row) :
    ((resample rows).map fun r => r.ts).Nodup := by
  cases rows with
  | nil => simp [resample]
  | cons r0 rest =>
      simp only [resample, List.map_map]
      refine List.Nodup.map ?_ (List.nodup_range _)
      intro i j h
      simp only [Function.comp_apply] at h
      omega

theorem mem_melt_sensor (sel : List Channel) (tbl : List Row) (m : MeltRow)
    (hm : m ∈ melt sel tbl) : ∃ c ∈ sel, m.sensor = channelName c := by
  obtain ⟨c, hc, hmm⟩ := List.mem_flatMap.mp hm
  obtain ⟨r, _, rfl⟩ := List.mem_map.mp hmm
  exact ⟨c, hc, rfl⟩

theorem melt_cons (c : Channel) (cs : List Channel) (tbl : List Row) :
    melt (c :: cs) tbl
      = (tbl.map fun r => { ts := r.ts, sensor := channelName c, temp := r.val c }) ++
        melt cs tbl := rfl

theorem melt_pairs_nodup (sel : List Channel) (tbl : List Row) (hsel : sel.Nodup)
    (htbl : (tbl.map fun r => r.ts).Nodup) :
    ((melt sel tbl).map fun m => (m.ts, m.sensor)).Nodup := by
  induction sel with
  | nil => simp [melt]
  | cons c cs ih =>
      rw [melt_cons, List.map_append, List.nodup_append]
      obtain ⟨hc, hcs⟩ := List.nodup_cons.mp hsel
      refine ⟨?_, ih hcs, ?_⟩
      · rw [List.map_map]
        have hfun : ((fun m : MeltRow => (m.ts, m.sensor)) ∘
            fun r : Row => ({ ts := r.ts, sensor := channelName c, temp := r.val c } : MeltRow))
            = (fun t : ℤ => (t, channelName c)) ∘ fun r : Row => r.ts := rfl
        rw [hfun, ← List.map_map]
        exact List.Nodup.map (fun a b h => (Prod.mk.injEq _ _ _ _).mp h |>.1) htbl
      · intro q hq hq'
        obtain ⟨m', hm', rfl⟩ := List.mem_map.mp hq
        obtain ⟨r, _, rfl⟩ := List.mem_map.mp hm'
        obtain ⟨m, hm, heq⟩ := List.mem_map.mp hq'
        obtain ⟨c', hc', hsen⟩ := mem_melt_sensor cs tbl m hm
        have hname : m.sensor = channelName c := congrArg Prod.snd heq
        have : c' = c := channelName_injective (by rw [← hsen, hname])
        exact hc (this ▸ hc')

theorem melt_filter_sensor (sel : List Channel) (tbl : List Row) (v : String) :
    ((melt sel tbl).filter fun m => m.sensor = v).length
      = (sel.filter fun c => channelName c = v).length * tbl.length := by
  induction sel with
  | nil => simp [melt]
  | cons c cs ih =>
      rw [melt_cons, List.filter_append, List.length_append, ih, List.filter_cons]
      by_cases hc : channelName c = v
      · rw [if_pos (by simpa using hc)]
        have hblock : ((tbl.map fun r =>
            ({ ts := r.ts, sensor := channelName c, temp := r.val c } : MeltRow)).filter
              fun m => m.sensor = v)
            = tbl.map fun r => ({ ts := r.ts, sensor := channelName c, temp := r.val c } : MeltRow) := by
          refine List.filter_eq_self.mpr fun m hm => ?_
          obtain ⟨r, _, rfl⟩ := List.mem_map.mp hm
          simpa using hc
        rw [hblock, List.length_map, List.length_cons, Nat.succ_mul]
        omega
      · rw [if_neg (by simpa using hc)]
        have hblock : ((tbl.map fun r =>
            ({ ts := r.ts, sensor := channelName c, temp := r.val c } : MeltRow)).filter
              fun m => m.sensor = v) = [] := by
          refine List.filter_eq_nil_iff.mpr fun m hm => ?_
          obtain ⟨r, _, rfl⟩ := List.mem_map.mp hm
          simpa using hc
        rw [hblock]
        simp

theorem nodup_filter_name_length (sel : List Channel) (c : Channel) (hnd : sel.Nodup)
    (hc : c ∈ sel) :
    (sel.filter fun d => channelName d = channelName c).length = 1 := by
  induction sel with
  | nil => simp at hc
  | cons d ds ih =>
      obtain ⟨hd, hds⟩ := List.nodup_cons.mp hnd
      rw [List.filter_cons]
      rcases List.mem_cons.mp hc with hcd | hc'
      · rw [if_pos (by simp [hcd])]
        have hnil : (ds.filter fun e => channelName e = channelName c) = [] := by
          refine List.filter_eq_nil_iff.mpr fun e he => ?_
          simp only [decide_eq_true_eq]
          intro heq
          have he' : e = c := channelName_injective heq
          rw [he', hcd] at he
          exact hd he
        rw [hnil]
        rfl
      · have hdc : ¬ channelName d = channelName c := by
          intro heq
          have hdeq : d = c := channelName_injective heq
          rw [hdeq] at hd
          exact hd hc'
        rw [if_neg (by simpa using hdc)]
        exact ih hds hc'

theorem melt_balanced (sel : List Channel) (tbl : List Row) (hsel : sel.Nodup)
    (htbl : (tbl.map fun r => r.ts).Nodup) :
    anovaRMBalanced (melt sel tbl) := by
  refine ⟨melt_pairs_nodup sel tbl hsel htbl, ?_⟩
  have hall : ∀ k ∈ withinCounts (melt sel tbl), k = tbl.length := by
    intro k hk
    obtain ⟨v, hv, rfl⟩ := List.mem_map.mp hk
    have hv' : v ∈ (melt sel tbl).map fun m => m.sensor := List.mem_dedup.mp hv
    obtain ⟨m, hm, rfl⟩ := List.mem_map.mp hv'
    obtain ⟨c, hc, hsen⟩ := mem_melt_sensor sel tbl m hm
    rw [melt_filter_sensor, hsen, nodup_filter_name_length sel c hsel hc, one_mul]
  intro k hk
  cases hwc : withinCounts (melt sel tbl) with
  | nil => rw [hwc] at hk; simp at hk
  | cons k0 ks =>
      rw [hwc] at hk
      have h0 := hall k0 (by rw [hwc]; simp)
      have h1 := hall k (by rw [hwc]; exact hk)
      simp [h0, h1]

theorem anovaTable_ne_empty (long : List MeltRow) : anovaTable long ≠ "" := by
  intro h
  have hlen := congrArg String.length h
  simp only [anovaTable, String.length_append] at hlen
  have h22 : 0 < ("                 Anova\n" : String).length := by decide
  have h0 : ("" : String).length = 0 := rfl
  rw [h0] at hlen
  omega

theorem anovaTable_contains_sensor (long : List MeltRow) :
    strContains (anovaTable long) "Sensor" := by
  refine ⟨"                 Anova\n" ++ "======================================\n" ++
    "       F Value Num DF  Den DF  Pr > F\n" ++ "--------------------------------------\n",
    " " ++ (anovaCells long).1 ++ " " ++ fmt4 (((levelsOf long).length - 1 : ℕ) : ℝ) ++ " " ++
      fmt4 ((((subjectsOf long).length - 1) * ((levelsOf long).length - 1) : ℕ) : ℝ) ++ " " ++
      (anovaCells long).2 ++ "\n" ++ "======================================\n", ?_⟩
  simp only [anovaTable]
  simp only [String.append_assoc]

theorem melt_get? (sel : List Channel) (tbl : List Row) (i j : ℕ)
    (hi : i < sel.length) (hj : j < tbl.length) :
    (melt sel tbl).get? (i * tbl.length + j)
      = (sel.get? i).bind fun c => (tbl.get? j).map fun r =>
          { ts := r.ts, sensor := channelName c, temp := r.val c } := by
  induction sel generalizing i with
  | nil => simp at hi
  | cons c cs ih =>
      cases i with
      | zero =>
          rw [melt_cons, Nat.zero_mul, Nat.zero_add,
            List.get?_append (by simpa using hj)]
          simp [List.get?_map]
      | succ i' =>
          have hlen : tbl.length ≤ (i' + 1) * tbl.length + j := by
            rw [Nat.succ_mul]
            omega
          rw [melt_cons, List.get?_append_right (by simpa using hlen)]
          have hidx : (i' + 1) * tbl.length + j -
              (tbl.map fun r =>
                ({ ts := r.ts, sensor := channelName c, temp := r.val c } : MeltRow)).length
              = i' * tbl.length + j := by
            rw [List.length_map, Nat.succ_mul]
            omega
          rw [hidx, ih i' (by simpa using hi)]
          rfl

/-- C6: with three or more (distinct) selected channels the callback
melts the selected resampled columns into long form — one row per
timestamp × channel, stacked channel by channel — and runs the
repeated-measures ANOVA with the timestamp as subject and the channel
(`Sensor`) as the only within-subject factor; its balance check passes
and the full rendered table, naming the within factor, is returned as
non-empty text. -/
theorem c6_three_plus_runs_rm_anova (rows : List SourceRow) (sel : List Channel)
    (h3 : 3 ≤ sel.length) (hnd : sel.Nodup) (_hne : df_resampled rows ≠ []) :
    update_errorbars_plot sel (df_resampled rows)
        = .ok (errorbarsFigure sel (df_resampled rows),
            anovaTable (melt sel (df_resampled rows))) ∧
    (melt sel (df_resampled rows)).length = sel.length * (df_resampled rows).length ∧
    (∀ i j : ℕ, i < sel.length → j < (df_resampled rows).length →
      (melt sel (df_resampled rows)).get? (i * (df_resampled rows).length + j)
        = (sel.get? i).bind fun c => ((df_resampled rows).get? j).map fun r =>
            { ts := r.ts, sensor := channelName c, temp := r.val c }) ∧
    anovaTable (melt sel (df_resampled rows)) ≠ "" ∧
    strContains (anovaTable (melt sel (df_resampled rows))) "Sensor" := by
  have hbal : anovaRMBalanced (melt sel (df_resampled rows)) :=
    melt_balanced sel (df_resampled rows) hnd (resample_ts_nodup (df rows))
  refine ⟨?_, ?_, fun i j hi hj => melt_get? sel (df_resampled rows) i j hi hj,
    anovaTable_ne_empty _, anovaTable_contains_sensor _⟩
  · rcases sel with _ | ⟨a, _ | ⟨b, _ | ⟨c, rest⟩⟩⟩
    · simp at h3
    · simp at h3
    · simp at h3
    · have h1 : update_errorbars_plot (a :: b :: c :: rest) (df_resampled rows)
          = (anovaRMText (melt (a :: b :: c :: rest) (df_resampled rows))).map
              fun txt => (errorbarsFigure (a :: b :: c :: rest) (df_resampled rows), txt) := by
        simp only [update_errorbars_plot]
        rw [if_pos (by simp)]
      rw [h1, anovaRMText, if_pos hbal]
      rfl
  · rw [melt, List.length_flatMap]
    have hconst : (List.length ∘ fun c : Channel => (df_resampled rows).map fun r =>
        ({ ts := r.ts, sensor := channelName c, temp := r.val c } : MeltRow))
        = fun _ : Channel => (df_resampled rows).length :=
      funext fun c => List.length_map _ _
    rw [hconst, List.map_const', List.sum_replicate, smul_eq_mul]

/-- Witness for C6 on the full three-channel selection over a one-bucket
table. -/
theorem c6_three_plus_witness :
    update_errorbars_plot [Channel.c1331, Channel.c1370, Channel.c1376] (df_resampled rowsSingle)
        = .ok (errorbarsFigure [Channel.c1331, Channel.c1370, Channel.c1376]
              (df_resampled rowsSingle),
            anovaTable (melt [Channel.c1331, Channel.c1370, Channel.c1376]
              (df_resampled rowsSingle))) ∧
    (melt [Channel.c1331, Channel.c1370, Channel.c1376] (df_resampled rowsSingle)).length
        = ([Channel.c1331, Channel.c1370, Channel.c1376] : List Channel).length
            * (df_resampled rowsSingle).length ∧
    (∀ i j : ℕ, i < ([Channel.c1331, Channel.c1370, Channel.c1376] : List Channel).length →
      j < (df_resampled rowsSingle).length →
      (melt [Channel.c1331, Channel.c1370, Channel.c1376] (df_resampled rowsSingle)).get?
          (i * (df_resampled rowsSingle).length + j)
        = (([Channel.c1331, Channel.c1370, Channel.c1376] : List Channel).get? i).bind fun c =>
            ((df_resampled rowsSingle).get? j).map fun r =>
              { ts := r.ts, sensor := channelName c, temp := r.val c }) ∧
    anovaTable (melt [Channel.c1331, Channel.c1370, Channel.c1376] (df_resampled rowsSingle))
        ≠ "" ∧
    strContains
      (anovaTable (melt [Channel.c1331, Channel.c1370, Channel.c1376] (df_resampled rowsSingle)))
      "Sensor" :=
  c6_three_plus_runs_rm_anova rowsSingle [Channel.c1331, Channel.c1370, Channel.c1376]
    (by decide) (by decide)
    (by
      intro h
      rw [show df_resampled rowsSingle = [{ ts := 0, val := fun _ => meanOpt [20] }] from rfl]
        at h
      exact List.noConfusion h)
